import Mathlib

/-!
Verification of the distributed transposition table (distributed-stockfish).

The development shallowly embeds the transposition-table code of the
repository: the entry codec (src/unnamed/part_001, TTEntry), the local
probe/replace protocol and hashfull estimator (src/src/tt.cpp,
src/unnamed/part_002), the write-buffer flush of the cached variant
(src/unnamed/part_002, DistTTEntry::save), the local read cache of the
cached variant (src/unnamed/part_002, TranspositionTable::probe), the
collective cluster merge of the replicated variant (src/src/tt.cpp,
TranspositionTable::clusterOp), and the owner-rank computation.

Machine integers are modelled as Nat (unsigned) and Int (signed); the C
casts are made explicit where the code performs them.  ClusterSize is 3
throughout, as in the source.
-/

/-- Number of entries per cluster (src/unnamed/part_001 line 93). -/
def ClusterSize : Nat := 3

/-- Bound constants of the engine: BOUND_NONE = 0, BOUND_UPPER = 1,
BOUND_LOWER = 2, BOUND_EXACT = 3 (Stockfish types.h, referenced by
TTEntry::save). -/
def BOUND_EXACT : Nat := 3

/-- Depth unit: one ply.  In the engine revision embedded here ONE_PLY = 1,
so depths are stored and compared directly in plies. -/
def ONE_PLY : Int := 1

/-- The C cast (uint16_t)x. -/
def toUInt16n (x : Nat) : Nat := x % 65536

/-- The C cast (uint8_t)x. -/
def toUInt8n (x : Nat) : Nat := x % 256

/-- The C cast (int16_t)v: two-complement wrap of an int into [-32768, 32768). -/
def toInt16i (v : Int) : Int := (v + 32768) % 65536 - 32768

/-- The C cast (int8_t)v: two-complement wrap of an int into [-128, 128). -/
def toInt8i (v : Int) : Int := (v + 128) % 256 - 128

/-- The 10-byte transposition-table entry (src/unnamed/part_001 lines 41-90).
Unsigned fields are Nat, signed fields Int. -/
structure TTEntry where
  key16 : Nat
  move16 : Nat
  value16 : Int
  eval16 : Int
  genBound8 : Nat
  depth8 : Int
deriving DecidableEq, Repr

/-- The all-zero entry (the state produced by memset 0). -/
def zeroEntry : TTEntry := ⟨0, 0, 0, 0, 0, 0⟩

/-- A cluster of ClusterSize entries.  The different branches of the
repository declare different trailing fields (char padding[2] in
src/unnamed/part_001, a numeric padding counter in the replicated
variant of src/src/tt.cpp, an identity tag key in src/unnamed/part_002
and src/unnamed/part_003); the embedding carries the union of those
fields, and each embedded function touches exactly the fields its own
source touches. -/
structure Cluster where
  e0 : TTEntry
  e1 : TTEntry
  e2 : TTEntry
  padding : Nat
  key : Nat
deriving DecidableEq, Repr

/-- The all-zero cluster. -/
def zeroCluster : Cluster := ⟨zeroEntry, zeroEntry, zeroEntry, 0, 0⟩

/-- Entry of a cluster at a slot index. -/
def Cluster.entryAt (c : Cluster) (i : Fin 3) : TTEntry :=
  if i = 0 then c.e0 else if i = 1 then c.e1 else c.e2

/-- The age term of the replacement value, exactly as written in
TranspositionTable::probe (src/src/tt.cpp lines 139-140) and
TranspositionTable::clusterOp (lines 302-307):
(259 + generation8 - genBound8) & 0xFC.  The subtraction is C int
arithmetic; for genBound8 < 256 it never goes negative (minimum 4), so
Nat subtraction is faithful. -/
def ageTerm (gen genBound : Nat) : Nat := (259 + gen - genBound) &&& 0xFC

/-- The aging-adjusted replacement value of an entry:
depth8 - ((259 + generation8 - genBound8) & 0xFC) * 2. -/
def entryValue (gen : Nat) (e : TTEntry) : Int :=
  e.depth8 - (ageTerm gen e.genBound8 : Int) * 2

/-- Owner rank of a key in the naive distributed variant
(src/src/tt.cpp line 99): ((key >> 45) & 7) % mpi_size. -/
def ownerNaive (key mpiSize : Nat) : Nat := ((key >>> 45) &&& 7) % mpiSize

/-- Owner rank of a key in the cached distributed variant
(src/unnamed/part_002 line 137): ((key >> 32) & 7) % mpi_size. -/
def ownerCached (key mpiSize : Nat) : Nat := ((key >>> 32) &&& 7) % mpiSize

/-- Bounded check of the age-term identity, discharged by evaluation:
for generations written as 4*q and 4*r with q, r < 64 and bound bits
b < 4, the masked age term equals the true modular age. -/
theorem ageTerm_aux : ∀ q, q < 64 → ∀ r, r < 64 → ∀ b, b < 4 →
    ageTerm (4 * q) ((4 * r) ||| b) = (4 * q + 256 - 4 * r) % 256 := by decide

/-- Claim C7: for a current generation G that is a multiple of 4 (mod 256)
and a stored genBound byte g|b with generation part g a multiple of 4 and
bound bits b < 4, the age term ((259 + G - (g|b)) & 0xFC) equals the true
relative age (G - g) mod 256, independent of the bound bits, across
generation wrap-around. -/
theorem c7_generation_wrap (G g b : Nat) (hG : G < 256) (hG4 : G % 4 = 0)
    (hg : g < 256) (hg4 : g % 4 = 0) (hb : b < 4) :
    ageTerm G (g ||| b) = (G + 256 - g) % 256 := by
  obtain ⟨q, rfl⟩ : ∃ q, G = 4 * q := ⟨G / 4, by omega⟩
  obtain ⟨r, rfl⟩ : ∃ r, g = 4 * r := ⟨g / 4, by omega⟩
  exact ageTerm_aux q (by omega) r (by omega) b hb

/-- Witness for C7 at the wrap-around scenario of the spec: the current
generation has cycled 252 -> 0 -> 4, and the entry saved at generation 252
(stored with bound bits 2) has true age 8; the depth-20 old entry is then
valued 20 - 8*2 = 4 against 5 for a depth-5 current entry. -/
theorem c7_generation_wrap_witness :
    ageTerm 4 (252 ||| 2) = (4 + 256 - 252) % 256 ∧
    ageTerm 4 (252 ||| 2) = 8 ∧
    entryValue 4 { zeroEntry with genBound8 := 252 ||| 2, depth8 := 20 } = 4 ∧
    entryValue 4 { zeroEntry with genBound8 := 4, depth8 := 5 } = 5 :=
  ⟨c7_generation_wrap 4 252 2 (by decide) (by decide) (by decide) (by decide)
    (by decide), by decide, by decide, by decide⟩

/-- Claim C10: for any node count N >= 1 the computed owner rank lies in
[0, min N 8) in both the naive and the cached variant; in particular it is
always below 8, so a buffered rank always indexes the 8-element locked
array of the flush in bounds, and when N > 8 the nodes of rank >= 8 never
own any key. -/
theorem c10_owner_rank_bound (key n : Nat) (hn : 0 < n) :
    ownerNaive key n < min n 8 ∧ ownerCached key n < min n 8 ∧
    ownerNaive key n < 8 ∧ ownerCached key n < 8 := by
  have h1 : (key >>> 45) &&& 7 ≤ 7 := Nat.and_le_right
  have h2 : (key >>> 32) &&& 7 ≤ 7 := Nat.and_le_right
  have h3 : ((key >>> 45) &&& 7) % n ≤ (key >>> 45) &&& 7 := Nat.mod_le _ _
  have h4 : ((key >>> 32) &&& 7) % n ≤ (key >>> 32) &&& 7 := Nat.mod_le _ _
  have h5 : ((key >>> 45) &&& 7) % n < n := Nat.mod_lt _ hn
  have h6 : ((key >>> 32) &&& 7) % n < n := Nat.mod_lt _ hn
  unfold ownerNaive ownerCached
  omega

/-- Witness for C10 at a concrete key and node count. -/
theorem c10_owner_rank_bound_witness :
    ownerNaive 123456789 3 < min 3 8 ∧ ownerCached 123456789 3 < min 3 8 ∧
    ownerNaive 123456789 3 < 8 ∧ ownerCached 123456789 3 < 8 :=
  c10_owner_rank_bound 123456789 3 (by decide)


/-- TTEntry::save (src/unnamed/part_001 lines 49-69), translated
statement by statement: the move is updated first, then the remaining
fields under the replacement condition, which reads the (unchanged)
key16 and depth8 fields. -/
def TTEntry.save (e : TTEntry) (k : Nat) (v : Int) (b : Nat) (d : Int)
    (m : Nat) (ev : Int) (g : Nat) : TTEntry :=
  let e1 := if m ≠ 0 ∨ k >>> 48 ≠ e.key16 then { e with move16 := toUInt16n m } else e
  if k >>> 48 ≠ e1.key16 ∨ d / ONE_PLY > e1.depth8 - 4 ∨ b = BOUND_EXACT then
    { e1 with
      key16 := toUInt16n (k >>> 48)
      value16 := toInt16i v
      eval16 := toInt16i ev
      genBound8 := toUInt8n (g ||| b)
      depth8 := toInt8i (d / ONE_PLY) }
  else e1

/-- The contract claimed for Save, stated field by field on the original
entry state: the move is overwritten with m exactly when m is non-null or
the stored key fragment mismatches, and the remaining fields are
overwritten exactly when the key fragment mismatches, the new depth
exceeds the stored depth minus 4 plies, or the bound is EXACT. -/
def saveSpec (e : TTEntry) (k : Nat) (v : Int) (b : Nat) (d : Int)
    (m : Nat) (ev : Int) (g : Nat) (e2 : TTEntry) : Prop :=
  (e2.move16 = if m ≠ 0 ∨ k >>> 48 ≠ e.key16 then m else e.move16) ∧
  (e2.key16 = if k >>> 48 ≠ e.key16 ∨ d > e.depth8 - 4 ∨ b = BOUND_EXACT
    then k >>> 48 else e.key16) ∧
  (e2.value16 = if k >>> 48 ≠ e.key16 ∨ d > e.depth8 - 4 ∨ b = BOUND_EXACT
    then v else e.value16) ∧
  (e2.eval16 = if k >>> 48 ≠ e.key16 ∨ d > e.depth8 - 4 ∨ b = BOUND_EXACT
    then ev else e.eval16) ∧
  (e2.genBound8 = if k >>> 48 ≠ e.key16 ∨ d > e.depth8 - 4 ∨ b = BOUND_EXACT
    then g ||| b else e.genBound8) ∧
  (e2.depth8 = if k >>> 48 ≠ e.key16 ∨ d > e.depth8 - 4 ∨ b = BOUND_EXACT
    then d else e.depth8)

/-- Claim C4: for every entry state and every in-range call
Save(k, v, b, d, m, ev, g), the stored move is overwritten with m iff m is
non-null or the stored key fragment differs from the top 16 bits of k, and
the remaining fields are overwritten iff the key fragment mismatches, the
new depth exceeds the stored depth minus 4 plies, or the bound is EXACT;
otherwise they are left unchanged. -/
theorem c4_save_contract (e : TTEntry) (k : Nat) (v : Int) (b : Nat)
    (d : Int) (m : Nat) (ev : Int) (g : Nat)
    (hk : k < 2 ^ 64) (hm : m < 65536)
    (hv1 : -32768 ≤ v) (hv2 : v < 32768)
    (hev1 : -32768 ≤ ev) (hev2 : ev < 32768)
    (hd1 : -128 ≤ d) (hd2 : d < 128)
    (hg : g < 256) (hb : b < 4) :
    saveSpec e k v b d m ev g (e.save k v b d m ev g) := by
  have hk16 : k >>> 48 < 65536 := by
    rw [Nat.shiftRight_eq_div_pow]
    omega
  have horb : g ||| b < 2 ^ 8 := Nat.or_lt_two_pow (by omega) (by omega)
  have hc1 : toUInt16n (k >>> 48) = k >>> 48 := Nat.mod_eq_of_lt hk16
  have hc2 : toUInt16n m = m := Nat.mod_eq_of_lt hm
  have hc3 : toUInt8n (g ||| b) = g ||| b := Nat.mod_eq_of_lt (by omega)
  have hc4 : toInt16i v = v := by unfold toInt16i; omega
  have hc5 : toInt16i ev = ev := by unfold toInt16i; omega
  have hc6 : d / ONE_PLY = d := by unfold ONE_PLY; omega
  have hc7 : toInt8i d = d := by unfold toInt8i; omega
  unfold TTEntry.save saveSpec
  by_cases hmv : m ≠ 0 ∨ k >>> 48 ≠ e.key16 <;>
    by_cases hrp : k >>> 48 ≠ e.key16 ∨ d > e.depth8 - 4 ∨ b = BOUND_EXACT <;>
      simp only [hmv, hrp, if_pos, if_neg, ite_true, ite_false, hc1, hc2, hc3,
        hc6, not_false_eq_true, not_true_eq_false, hc4, hc5, hc7] <;>
      simp_all

/-- Witness for C4: a concrete save on a populated entry whose key
matches, with a null move, a shallow depth and a non-exact bound, leaves
every field unchanged; the theorem is applied at that input. -/
theorem c4_save_contract_witness :
    saveSpec ⟨5, 7, 11, 13, 12, 10⟩ (5 * 2 ^ 48) 100 1 3 0 50 8
      (TTEntry.save ⟨5, 7, 11, 13, 12, 10⟩ (5 * 2 ^ 48) 100 1 3 0 50 8) :=
  c4_save_contract ⟨5, 7, 11, 13, 12, 10⟩ (5 * 2 ^ 48) 100 1 3 0 50 8
    (by norm_num) (by decide) (by decide) (by decide) (by decide) (by decide)
    (by decide) (by decide) (by decide) (by decide)

/-- The generation refresh applied by probe to a matched or empty slot
(src/src/tt.cpp lines 125-126): if the stored generation differs from the
current one and the entry is non-empty, genBound8 is rewritten as
generation8 | bound(). -/
def TTEntry.refresh (gen : Nat) (e : TTEntry) : TTEntry :=
  if e.genBound8 &&& 0xFC ≠ gen ∧ e.key16 ≠ 0 then
    { e with genBound8 := toUInt8n (gen ||| (e.genBound8 &&& 0x3)) }
  else e

/-- The replacement scan of probe (src/src/tt.cpp lines 132-144,
src/unnamed/part_002 lines 199-211): starting from slot 0, a slot with a
strictly smaller aging-adjusted value replaces the current candidate. -/
def replaceIdx (gen : Nat) (c : Cluster) : Fin 3 :=
  let r1 : Fin 3 := if entryValue gen c.e0 > entryValue gen c.e1 then 1 else 0
  if entryValue gen (c.entryAt r1) > entryValue gen c.e2 then 2 else r1

/-- The local probe of a cluster (the shared local path of
TranspositionTable::probe): the first empty or key-matching slot is
selected (with a generation refresh), otherwise the replacement scan
designates a victim.  Returns (found, slot index, updated cluster). -/
def probeLocal (gen key16 : Nat) (c : Cluster) : Bool × Fin 3 × Cluster :=
  if c.e0.key16 = 0 ∨ c.e0.key16 = key16 then
    (decide (c.e0.key16 ≠ 0), 0, { c with e0 := c.e0.refresh gen })
  else if c.e1.key16 = 0 ∨ c.e1.key16 = key16 then
    (decide (c.e1.key16 ≠ 0), 1, { c with e1 := c.e1.refresh gen })
  else if c.e2.key16 = 0 ∨ c.e2.key16 = key16 then
    (decide (c.e2.key16 ≠ 0), 2, { c with e2 := c.e2.refresh gen })
  else (false, replaceIdx gen c, c)

/-- Case split helper for quantification over the three cluster slots. -/
theorem fin3_all {P : Fin 3 → Prop} (p0 : P 0) (p1 : P 1) (p2 : P 2) :
    ∀ j : Fin 3, P j := by
  intro j
  rcases j with ⟨jv, hj⟩
  interval_cases jv
  · exact p0
  · exact p1
  · exact p2

/-- The replacement scan picks the slot of minimal aging-adjusted value,
lowest index first on ties. -/
theorem replaceIdx_spec (gen : Nat) (c : Cluster) :
    (∀ j : Fin 3,
      entryValue gen (c.entryAt (replaceIdx gen c)) ≤
        entryValue gen (c.entryAt j)) ∧
    (∀ j : Fin 3,
      entryValue gen (c.entryAt j) =
          entryValue gen (c.entryAt (replaceIdx gen c)) →
        replaceIdx gen c ≤ j) := by
  have E0 : c.entryAt 0 = c.e0 := rfl
  have E1 : c.entryAt 1 = c.e1 := rfl
  have E2 : c.entryAt 2 = c.e2 := rfl
  by_cases a01 : entryValue gen c.e0 > entryValue gen c.e1
  · by_cases a12 : entryValue gen (c.entryAt 1) > entryValue gen c.e2
    · have hidx : replaceIdx gen c = 2 := by
        simp only [replaceIdx, a01, ite_true, a12]
      rw [hidx, E2]
      rw [E1] at a12
      constructor
      · exact fin3_all (by rw [E0]; omega) (by rw [E1]; omega) (by rw [E2])
      · exact fin3_all (by rw [E0]; intro h; exfalso; omega)
          (by rw [E1]; intro h; exfalso; omega) (fun _ => by decide)
    · have hidx : replaceIdx gen c = 1 := by
        simp only [replaceIdx, a01, ite_true, a12, ite_false]
      rw [hidx, E1]
      rw [E1] at a12
      constructor
      · exact fin3_all (by rw [E0]; omega) (by rw [E1]) (by rw [E2]; omega)
      · exact fin3_all (by rw [E0]; intro h; exfalso; omega)
          (fun _ => by decide) (fun _ => by decide)
  · by_cases a02 : entryValue gen (c.entryAt 0) > entryValue gen c.e2
    · have hidx : replaceIdx gen c = 2 := by
        simp only [replaceIdx, a01, ite_false, a02, ite_true]
      rw [hidx, E2]
      rw [E0] at a02
      constructor
      · exact fin3_all (by rw [E0]; omega) (by rw [E1]; omega) (by rw [E2])
      · exact fin3_all (by rw [E0]; intro h; exfalso; omega)
          (by rw [E1]; intro h; exfalso; omega) (fun _ => by decide)
    · have hidx : replaceIdx gen c = 0 := by
        simp only [replaceIdx, a01, ite_false, a02, ite_true]
      rw [hidx, E0]
      rw [E0] at a02
      constructor
      · exact fin3_all (by rw [E0]) (by rw [E1]; omega) (by rw [E2]; omega)
      · exact fin3_all (fun _ => by decide) (fun _ => by decide)
          (fun _ => by decide)

/-- Claim C5: on a local cluster whose three entries are all non-empty and
none of which matches the probed key fragment, probe reports found=false,
mutates nothing, and designates as victim exactly the slot minimizing the
aging-adjusted value, lowest slot index winning ties. -/
theorem c5_replacement_victim (gen key16 : Nat) (c : Cluster)
    (h0 : c.e0.key16 ≠ 0) (h1 : c.e1.key16 ≠ 0) (h2 : c.e2.key16 ≠ 0)
    (m0 : c.e0.key16 ≠ key16) (m1 : c.e1.key16 ≠ key16)
    (m2 : c.e2.key16 ≠ key16) :
    (probeLocal gen key16 c).1 = false ∧
    (probeLocal gen key16 c).2.2 = c ∧
    (∀ j : Fin 3,
      entryValue gen (c.entryAt (probeLocal gen key16 c).2.1) ≤
        entryValue gen (c.entryAt j)) ∧
    (∀ j : Fin 3,
      entryValue gen (c.entryAt j) =
          entryValue gen (c.entryAt (probeLocal gen key16 c).2.1) →
        (probeLocal gen key16 c).2.1 ≤ j) := by
  have H0 : ¬(c.e0.key16 = 0 ∨ c.e0.key16 = key16) := by tauto
  have H1 : ¬(c.e1.key16 = 0 ∨ c.e1.key16 = key16) := by tauto
  have H2 : ¬(c.e2.key16 = 0 ∨ c.e2.key16 = key16) := by tauto
  have hp : probeLocal gen key16 c = (false, replaceIdx gen c, c) := by
    simp only [probeLocal, H0, H1, H2, ite_false]
  rw [hp]
  exact ⟨rfl, rfl, (replaceIdx_spec gen c).1, (replaceIdx_spec gen c).2⟩

/-- Witness for C5: a full cluster of distinct non-matching keys where the
middle slot is oldest and deepest slots are newer; slot values are
v0 = 10 - 0 = 10, v1 = 3 - 0 = 3, v2 = 3 - 0 = 3 under generation 0, so
slot 1 wins the tie against slot 2. -/
theorem c5_replacement_victim_witness :
    (probeLocal 0 9 ⟨⟨1, 0, 0, 0, 0, 10⟩, ⟨2, 0, 0, 0, 0, 3⟩,
        ⟨3, 0, 0, 0, 0, 3⟩, 0, 0⟩).1 = false ∧
    (probeLocal 0 9 ⟨⟨1, 0, 0, 0, 0, 10⟩, ⟨2, 0, 0, 0, 0, 3⟩,
        ⟨3, 0, 0, 0, 0, 3⟩, 0, 0⟩).2.2 = ⟨⟨1, 0, 0, 0, 0, 10⟩,
        ⟨2, 0, 0, 0, 0, 3⟩, ⟨3, 0, 0, 0, 0, 3⟩, 0, 0⟩ ∧
    (∀ j : Fin 3,
      entryValue 0 (Cluster.entryAt ⟨⟨1, 0, 0, 0, 0, 10⟩, ⟨2, 0, 0, 0, 0, 3⟩,
          ⟨3, 0, 0, 0, 0, 3⟩, 0, 0⟩
        (probeLocal 0 9 ⟨⟨1, 0, 0, 0, 0, 10⟩, ⟨2, 0, 0, 0, 0, 3⟩,
          ⟨3, 0, 0, 0, 0, 3⟩, 0, 0⟩).2.1) ≤
      entryValue 0 (Cluster.entryAt ⟨⟨1, 0, 0, 0, 0, 10⟩, ⟨2, 0, 0, 0, 0, 3⟩,
          ⟨3, 0, 0, 0, 0, 3⟩, 0, 0⟩ j)) ∧
    (∀ j : Fin 3,
      entryValue 0 (Cluster.entryAt ⟨⟨1, 0, 0, 0, 0, 10⟩, ⟨2, 0, 0, 0, 0, 3⟩,
          ⟨3, 0, 0, 0, 0, 3⟩, 0, 0⟩ j) =
        entryValue 0 (Cluster.entryAt ⟨⟨1, 0, 0, 0, 0, 10⟩, ⟨2, 0, 0, 0, 0, 3⟩,
          ⟨3, 0, 0, 0, 0, 3⟩, 0, 0⟩
          (probeLocal 0 9 ⟨⟨1, 0, 0, 0, 0, 10⟩, ⟨2, 0, 0, 0, 0, 3⟩,
            ⟨3, 0, 0, 0, 0, 3⟩, 0, 0⟩).2.1) →
        (probeLocal 0 9 ⟨⟨1, 0, 0, 0, 0, 10⟩, ⟨2, 0, 0, 0, 0, 3⟩,
          ⟨3, 0, 0, 0, 0, 3⟩, 0, 0⟩).2.1 ≤ j) :=
  c5_replacement_victim 0 9 ⟨⟨1, 0, 0, 0, 0, 10⟩, ⟨2, 0, 0, 0, 0, 3⟩,
    ⟨3, 0, 0, 0, 0, 3⟩, 0, 0⟩ (by decide) (by decide) (by decide)
    (by decide) (by decide) (by decide)

/-- Number of entries of a cluster whose stored generation matches the
current one, as counted by the inner loop of hashfull
(src/src/tt.cpp lines 156-159). -/
def clusterCurrentCount (gen : Nat) (c : Cluster) : Nat :=
  (if c.e0.genBound8 &&& 0xFC = gen then 1 else 0) +
  (if c.e1.genBound8 &&& 0xFC = gen then 1 else 0) +
  (if c.e2.genBound8 &&& 0xFC = gen then 1 else 0)

/-- TranspositionTable::hashfull (src/src/tt.cpp lines 151-162): scans
the first 1000 / ClusterSize clusters of the table and accumulates the
per-cluster counts of current-generation entries. -/
def hashfull (gen : Nat) (table : Nat → Cluster) : Nat :=
  (List.range (1000 / ClusterSize)).foldl
    (fun cnt i => cnt + clusterCurrentCount gen (table i)) 0

/-- Folding the accumulation of a count function equals the sum of its
values. -/
theorem foldl_add_eq_sum (f : Nat → Nat) :
    ∀ (l : List Nat) (acc : Nat),
      l.foldl (fun cnt i => cnt + f i) acc = acc + (l.map f).sum := by
  intro l
  induction l with
  | nil => intro acc; simp
  | cons a t ih =>
    intro acc
    simp only [List.foldl_cons, List.map_cons, List.sum_cons, ih]
    omega

/-- A list of naturals bounded by 3 sums to at most 3 times its length. -/
theorem sum_le_three_mul (l : List Nat) (h : ∀ x ∈ l, x ≤ 3) :
    l.sum ≤ 3 * l.length := by
  induction l with
  | nil => simp
  | cons a t ih =>
    have ha := h a (by simp)
    have ht := ih (fun x hx => h x (by simp [hx]))
    simp only [List.sum_cons, List.length_cons]
    omega

/-- A list of naturals all equal to 3 sums to 3 times its length. -/
theorem sum_eq_three_mul (l : List Nat) (h : ∀ x ∈ l, x = 3) :
    l.sum = 3 * l.length := by
  induction l with
  | nil => simp
  | cons a t ih =>
    have ha := h a (by simp)
    have ht := ih (fun x hx => h x (by simp [hx]))
    simp only [List.sum_cons, List.length_cons]
    omega

/-- A list of zeros sums to zero. -/
theorem sum_eq_zero_of_all_zero (l : List Nat) (h : ∀ x ∈ l, x = 0) :
    l.sum = 0 := by
  induction l with
  | nil => simp
  | cons a t ih =>
    have ha := h a (by simp)
    have ht := ih (fun x hx => h x (by simp [hx]))
    simp [List.sum_cons, ha, ht]

/-- A per-cluster count never exceeds ClusterSize = 3. -/
theorem clusterCurrentCount_le (gen : Nat) (c : Cluster) :
    clusterCurrentCount gen c ≤ 3 := by
  unfold clusterCurrentCount
  split_ifs <;> omega

/-- Claim C6, amended: hashfull samples the first 1000 / ClusterSize = 333
clusters, so its value lies in [0, 999] (in particular within the claimed
[0, 1000]); it returns 999 - not 1000 - when every sampled cluster is fully
occupied with current-generation entries; and it returns 0 on a freshly
cleared table provided the current generation is nonzero (with current
generation 0, zeroed entries count as current). -/
theorem c6_hashfull_amended (gen : Nat) (table : Nat → Cluster) :
    hashfull gen table ≤ 999 ∧
    ((∀ i, i < 1000 / ClusterSize →
        (table i).e0.genBound8 &&& 0xFC = gen ∧
        (table i).e1.genBound8 &&& 0xFC = gen ∧
        (table i).e2.genBound8 &&& 0xFC = gen) →
      hashfull gen table = 999) ∧
    (gen ≠ 0 → (∀ i, table i = zeroCluster) → hashfull gen table = 0) := by
  have hlen : (List.range (1000 / ClusterSize)).length = 333 := by
    simp [ClusterSize]
  have hform : hashfull gen table =
      ((List.range (1000 / ClusterSize)).map
        (fun i => clusterCurrentCount gen (table i))).sum := by
    unfold hashfull
    rw [foldl_add_eq_sum]
    omega
  refine ⟨?_, ?_, ?_⟩
  · rw [hform]
    have := sum_le_three_mul
      ((List.range (1000 / ClusterSize)).map
        (fun i => clusterCurrentCount gen (table i)))
      (by
        intro x hx
        rw [List.mem_map] at hx
        obtain ⟨i, _, rfl⟩ := hx
        exact clusterCurrentCount_le gen (table i))
    rw [List.length_map, hlen] at this
    omega
  · intro hall
    rw [hform]
    have := sum_eq_three_mul
      ((List.range (1000 / ClusterSize)).map
        (fun i => clusterCurrentCount gen (table i)))
      (by
        intro x hx
        rw [List.mem_map] at hx
        obtain ⟨i, hi, rfl⟩ := hx
        rw [List.mem_range] at hi
        obtain ⟨q0, q1, q2⟩ := hall i hi
        simp [clusterCurrentCount, q0, q1, q2])
    rw [List.length_map, hlen] at this
    omega
  · intro hgen hzero
    rw [hform]
    apply sum_eq_zero_of_all_zero
    intro x hx
    rw [List.mem_map] at hx
    obtain ⟨i, _, rfl⟩ := hx
    rw [hzero i]
    simp only [clusterCurrentCount, zeroCluster, zeroEntry]
    norm_num
    omega

/-- A cluster whose three entries all carry generation 4 (bound bits 0). -/
def c6FullCluster : Cluster :=
  ⟨⟨1, 0, 0, 0, 4, 0⟩, ⟨2, 0, 0, 0, 4, 0⟩, ⟨3, 0, 0, 0, 4, 0⟩, 0, 0⟩

set_option maxRecDepth 4000 in
/-- Counterexample for C6 as stated: with current generation 4 and every
sampled cluster fully occupied by current-generation entries, hashfull
returns 999, not the claimed 1000; moreover on a fully zeroed (freshly
cleared) table with current generation 0 it returns 999, not the claimed
0. -/
theorem c6_counterexample :
    hashfull 4 (fun _ => c6FullCluster) = 999 ∧
    hashfull 4 (fun _ => c6FullCluster) ≠ 1000 ∧
    hashfull 0 (fun _ => zeroCluster) = 999 := by
  refine ⟨by decide, by decide, by decide⟩

/-- Witness for C6: the amended theorem applied at the fully occupied
generation-4 table and at a zeroed table under generation 8. -/
theorem c6_hashfull_amended_witness :
    hashfull 4 (fun _ => c6FullCluster) = 999 ∧
    hashfull 8 (fun _ => zeroCluster) = 0 :=
  ⟨(c6_hashfull_amended 4 (fun _ => c6FullCluster)).2.1
      (fun i _ => ⟨by decide, by decide, by decide⟩),
    (c6_hashfull_amended 8 (fun _ => zeroCluster)).2.2 (by decide)
      (fun _ => rfl)⟩

/-- Ranking relation of the collective merge: position x precedes
position y when the value assigned to x is at least the value assigned to
y.  This is the sorted-output relation of std sort called with the strict
comparator values[x] > values[y] in TranspositionTable::clusterOp
(src/src/tt.cpp lines 312-314); tie order among equal values is
unspecified in the source and the insertion sort below fixes one valid
execution. -/
def keyRank (values : List Int) (x y : Nat) : Prop :=
  values.getD y 0 ≤ values.getD x 0

instance keyRankDecidable (values : List Int) : DecidableRel (keyRank values) :=
  fun x y => inferInstanceAs (Decidable (values.getD y 0 ≤ values.getD x 0))

instance keyRankTotal (values : List Int) : IsTotal Nat (keyRank values) :=
  ⟨fun a b => le_total (values.getD b 0) (values.getD a 0)⟩

instance keyRankTrans (values : List Int) : IsTrans Nat (keyRank values) :=
  ⟨fun _ _ _ hab hbc => le_trans hbc hab⟩

/-- The value array of clusterOp (src/src/tt.cpp lines 301-308): positions
0..2 hold the values of the invec entries, positions 3..5 those of the
inoutvec entries. -/
def mergeValues (gen : Nat) (invec inout : Cluster) : List Int :=
  [entryValue gen invec.e0, entryValue gen invec.e1, entryValue gen invec.e2,
   entryValue gen inout.e0, entryValue gen inout.e1, entryValue gen inout.e2]

/-- The entry array ttes of clusterOp (src/src/tt.cpp lines 299-300):
positions 0..2 hold the inoutvec entries, positions 3..5 the invec
entries - note the halves are swapped relative to mergeValues. -/
def mergeTtes (invec inout : Cluster) : List TTEntry :=
  [inout.e0, inout.e1, inout.e2, invec.e0, invec.e1, invec.e2]

/-- The index permutation produced by the sort of clusterOp
(src/src/tt.cpp lines 309-314). -/
def mergePerm (gen : Nat) (invec inout : Cluster) : List Nat :=
  List.insertionSort (keyRank (mergeValues gen invec inout)) [0, 1, 2, 3, 4, 5]

/-- One pairwise step of TranspositionTable::clusterOp
(src/src/tt.cpp lines 287-319) on a single cluster pair: the padding
counters add, and the output entries are ttes[a[0]], ttes[a[1]],
ttes[a[2]] for the sorted index permutation a. -/
def mergeCluster (gen : Nat) (invec inout : Cluster) : Cluster :=
  { e0 := (mergeTtes invec inout).getD ((mergePerm gen invec inout).getD 0 0) zeroEntry
    e1 := (mergeTtes invec inout).getD ((mergePerm gen invec inout).getD 1 0) zeroEntry
    e2 := (mergeTtes invec inout).getD ((mergePerm gen invec inout).getD 2 0) zeroEntry
    padding := inout.padding + invec.padding
    key := inout.key }

/-- Claim C2, amended: the merge adds the padding counters; the sorted
index sequence is a permutation of the six positions; every kept position
(the first three of the permutation) has an assigned value at least that
of every dropped position, where position j < 3 is assigned the value of
the invec entry j but stores the inout entry j, and position j >= 3 is
assigned the value of the inout entry j-3 but stores the invec entry j-3
(the value and storage halves are swapped); and the output entries are
exactly the stored entries at the three kept positions. -/
theorem c2_merge_amended (gen : Nat) (invec inout : Cluster) :
    (mergeCluster gen invec inout).padding = inout.padding + invec.padding ∧
    List.Perm (mergePerm gen invec inout) [0, 1, 2, 3, 4, 5] ∧
    (∀ x ∈ (mergePerm gen invec inout).take 3,
      ∀ y ∈ (mergePerm gen invec inout).drop 3,
        (mergeValues gen invec inout).getD y 0 ≤
          (mergeValues gen invec inout).getD x 0) ∧
    (mergeCluster gen invec inout).e0 =
      (mergeTtes invec inout).getD ((mergePerm gen invec inout).getD 0 0) zeroEntry ∧
    (mergeCluster gen invec inout).e1 =
      (mergeTtes invec inout).getD ((mergePerm gen invec inout).getD 1 0) zeroEntry ∧
    (mergeCluster gen invec inout).e2 =
      (mergeTtes invec inout).getD ((mergePerm gen invec inout).getD 2 0) zeroEntry := by
  refine ⟨rfl, ?_, ?_, rfl, rfl, rfl⟩
  · exact List.perm_insertionSort _ _
  · have hs : List.Sorted (keyRank (mergeValues gen invec inout))
        (mergePerm gen invec inout) :=
      List.sorted_insertionSort _ _
    have hsplit : (mergePerm gen invec inout).take 3 ++
        (mergePerm gen invec inout).drop 3 = mergePerm gen invec inout :=
      List.take_append_drop 3 _
    have hp : List.Pairwise (keyRank (mergeValues gen invec inout))
        ((mergePerm gen invec inout).take 3 ++
          (mergePerm gen invec inout).drop 3) := by
      rw [hsplit]
      exact hs
    exact fun x hx y hy => (List.pairwise_append.mp hp).2.2 x hx y hy

/-- A concrete cluster with entries of depths 10, 20, 30 (generation 0,
aging value equal to the depth under current generation 0). -/
def c2A : Cluster :=
  ⟨⟨1, 0, 0, 0, 0, 10⟩, ⟨2, 0, 0, 0, 0, 20⟩, ⟨3, 0, 0, 0, 0, 30⟩, 5, 0⟩

/-- A concrete cluster with entries of depths 1, 2, 3. -/
def c2B : Cluster :=
  ⟨⟨4, 0, 0, 0, 0, 1⟩, ⟨5, 0, 0, 0, 0, 2⟩, ⟨6, 0, 0, 0, 0, 3⟩, 7, 0⟩

/-- Counterexample for C2 as stated.  Merging invec = c2B (values 1, 2, 3)
into inout = c2A (values 10, 20, 30) keeps the three c2B entries, so the
dropped entry of value 30 strictly beats every kept entry - the merged
cluster is not the top 3 of the concatenation by own value.  Moreover
merging c2A with itself yields its best entry twice and drops its
depth-10 entry, so a self-merge does not yield the own top-3 entries
either. -/
theorem c2_counterexample :
    entryValue 0 c2A.e2 > entryValue 0 (mergeCluster 0 c2B c2A).e0 ∧
    entryValue 0 c2A.e2 > entryValue 0 (mergeCluster 0 c2B c2A).e1 ∧
    entryValue 0 c2A.e2 > entryValue 0 (mergeCluster 0 c2B c2A).e2 ∧
    (mergeCluster 0 c2A c2A).e0 = (mergeCluster 0 c2A c2A).e1 ∧
    (mergeCluster 0 c2A c2A).e0 = c2A.e2 ∧
    (mergeCluster 0 c2A c2A).e2 = c2A.e1 ∧
    (mergeCluster 0 c2A c2A).e0 ≠ c2A.e0 ∧
    (mergeCluster 0 c2A c2A).e1 ≠ c2A.e0 ∧
    (mergeCluster 0 c2A c2A).e2 ≠ c2A.e0 := by decide

/-- Witness for C2 (amended): at the concrete pair the padding counters
add, and the kept position 5 dominates the dropped position 0. -/
theorem c2_merge_amended_witness :
    (mergeCluster 0 c2B c2A).padding = c2A.padding + c2B.padding ∧
    (mergeValues 0 c2B c2A).getD 0 0 ≤ (mergeValues 0 c2B c2A).getD 5 0 :=
  ⟨(c2_merge_amended 0 c2B c2A).1,
    (c2_merge_amended 0 c2B c2A).2.2.1 5 (by decide) 0 (by decide)⟩

/-- TranspositionTable::probe of the replicated (global-smp) variant
(src/src/tt.cpp lines 238-268): identical to the local probe except that
a successful lookup also increments the padding counter of the probed
cluster (lines 249-253).  Returns (found, updated cluster). -/
def probeGlobal (gen key16 : Nat) (c : Cluster) : Bool × Cluster :=
  if c.e0.key16 = 0 ∨ c.e0.key16 = key16 then
    let c1 := { c with e0 := c.e0.refresh gen }
    if c.e0.key16 ≠ 0 then (true, { c1 with padding := c1.padding + 1 })
    else (false, c1)
  else if c.e1.key16 = 0 ∨ c.e1.key16 = key16 then
    let c1 := { c with e1 := c.e1.refresh gen }
    if c.e1.key16 ≠ 0 then (true, { c1 with padding := c1.padding + 1 })
    else (false, c1)
  else if c.e2.key16 = 0 ∨ c.e2.key16 = key16 then
    let c1 := { c with e2 := c.e2.refresh gen }
    if c.e2.key16 ≠ 0 then (true, { c1 with padding := c1.padding + 1 })
    else (false, c1)
  else (false, c)

/-- Claim C9: in the replicated variant, a probe that returns found=true
increments the probed cluster padding counter by exactly one, a probe
that returns found=false leaves it unchanged, and the collective merge
adds the padding counters of the two merged clusters. -/
theorem c9_padding_counter (gen key16 : Nat) (c a b : Cluster) :
    ((probeGlobal gen key16 c).1 = true →
      (probeGlobal gen key16 c).2.padding = c.padding + 1) ∧
    ((probeGlobal gen key16 c).1 = false →
      (probeGlobal gen key16 c).2.padding = c.padding) ∧
    (mergeCluster gen a b).padding = b.padding + a.padding := by
  refine ⟨?_, ?_, rfl⟩ <;>
  · intro hfound
    unfold probeGlobal at hfound ⊢
    by_cases q0 : c.e0.key16 = 0 ∨ c.e0.key16 = key16 <;>
      by_cases q1 : c.e1.key16 = 0 ∨ c.e1.key16 = key16 <;>
        by_cases q2 : c.e2.key16 = 0 ∨ c.e2.key16 = key16 <;>
          by_cases n0 : c.e0.key16 ≠ 0 <;>
            by_cases n1 : c.e1.key16 ≠ 0 <;>
              by_cases n2 : c.e2.key16 ≠ 0 <;>
                simp_all

/-- Witness for C9: a hit on a populated entry increments the counter, a
probe of a full non-matching cluster leaves it unchanged. -/
theorem c9_padding_counter_witness :
    (probeGlobal 0 1 ⟨⟨1, 0, 0, 0, 0, 10⟩, zeroEntry, zeroEntry, 41, 0⟩).2.padding
        = 41 + 1 ∧
    (probeGlobal 0 9 ⟨⟨1, 0, 0, 0, 0, 10⟩, ⟨2, 0, 0, 0, 0, 3⟩,
        ⟨3, 0, 0, 0, 0, 3⟩, 41, 0⟩).2.padding = 41 :=
  ⟨(c9_padding_counter 0 1 ⟨⟨1, 0, 0, 0, 0, 10⟩, zeroEntry, zeroEntry, 41, 0⟩
      zeroCluster zeroCluster).1 (by decide),
    (c9_padding_counter 0 9 ⟨⟨1, 0, 0, 0, 0, 10⟩, ⟨2, 0, 0, 0, 0, 3⟩,
      ⟨3, 0, 0, 0, 0, 3⟩, 41, 0⟩ zeroCluster zeroCluster).2.1 (by decide)⟩

/-- TranspositionTable::clear of the naive distributed variant
(src/src/tt.cpp lines 67-71) and of the cached variant
(src/unnamed/part_002 lines 78-82): the first statement of the body is
abort(), so the call terminates the process and the following memset is
never executed.  The abnormal termination is modelled as none. -/
def clearAborting (_table : Nat → Cluster) : Option (Nat → Cluster) :=
  none

/-- TranspositionTable::clear of the replicated variant
(src/src/tt.cpp lines 225-228): memset of the whole table to zero. -/
def clearGlobal (_table : Nat → Cluster) : Nat → Cluster :=
  fun _ => zeroCluster

/-- Claim C1 (code bug): in the naive and cached variants Clear() reaches
abort() before the memset, so it never returns normally and zeroes
nothing, contradicting its own doc comment and the spec; the replicated
variant zeroes every cluster as documented. -/
theorem c1_clear_aborts :
    clearAborting (fun _ => c6FullCluster) = none ∧
    (∀ (t : Nat → Cluster) (i : Nat), clearGlobal t i = zeroCluster) ∧
    (clearGlobal (fun _ => c6FullCluster) 0).e0 = zeroEntry ∧
    (clearGlobal (fun _ => c6FullCluster) 0).e1 = zeroEntry ∧
    (clearGlobal (fun _ => c6FullCluster) 0).e2 = zeroEntry ∧
    (clearGlobal (fun _ => c6FullCluster) 0).padding = 0 :=
  ⟨rfl, fun _ _ => rfl, rfl, rfl, rfl, rfl⟩

/-- A queued remote write of the cached variant: the cluster snapshot,
the cluster index and the destination rank, as stored in the parallel
buffers cluster_buffer, key_buffer and rank_buffer
(src/unnamed/part_002 lines 92-95). -/
structure BufEntry where
  cl : Cluster
  key : Nat
  rank : Nat
deriving DecidableEq, Repr

/-- The observable outcome of DistTTEntry::save: the remote puts issued
(in order), the remote window locks acquired (in order), and the buffer
contents after the call. -/
structure SaveOutcome where
  puts : List BufEntry
  locks : List Nat
  buf : List BufEntry
deriving DecidableEq, Repr

/-- The lock-acquisition loop of the flush (src/unnamed/part_002 lines
113-119): walking the buffered ranks, a lock is acquired the first time
each rank is seen; the first argument accumulates the set of ranks
already locked. -/
def lockSeq : List Nat → List Nat → List Nat
  | _, [] => []
  | locked, r :: rs =>
    if r ∈ locked then lockSeq locked rs
    else r :: lockSeq (r :: locked) rs

/-- DistTTEntry::save of the cached variant (src/unnamed/part_002 lines
97-132): a local-rank write is a no-op; while the buffer is below
MaxBuffer the write is queued; otherwise the flush resets the buffer to
empty, locks each distinct buffered rank once, puts every buffered write
once, and unlocks - the triggering write w is not retried into the
buffer. -/
def distSave (mpiRank maxBuffer : Nat) (buffer : List BufEntry)
    (w : BufEntry) : SaveOutcome :=
  if w.rank = mpiRank then ⟨[], [], buffer⟩
  else if buffer.length < maxBuffer then ⟨[], [], buffer ++ [w]⟩
  else ⟨buffer, lockSeq [] (buffer.map (fun e => e.rank)), []⟩

/-- Each rank receives exactly one lock acquisition: the count of x in
the lock sequence is 1 when x occurs among the remaining ranks and is
not already locked, else 0. -/
theorem lockSeq_count (x : Nat) :
    ∀ (rs locked : List Nat),
      (lockSeq locked rs).count x =
        if x ∈ rs ∧ x ∉ locked then 1 else 0 := by
  intro rs
  induction rs with
  | nil => intro locked; simp [lockSeq]
  | cons r rs ih =>
    intro locked
    rw [lockSeq]
    by_cases hr : r ∈ locked
    · rw [if_pos hr, ih]
      by_cases hxr : x = r
      · subst hxr
        simp [hr]
      · simp [List.mem_cons, hxr]
    · rw [if_neg hr, List.count_cons, ih]
      by_cases hxr : x = r
      · subst hxr
        simp [hr, List.mem_cons]
      · simp [List.mem_cons, hxr, Ne.symm hxr]

/-- Claim C3, amended: a remote-owned save arriving on a full buffer
flushes: every one of the MaxBuffer queued writes is put exactly once (in
queue order), the per-destination window lock is acquired exactly once
per distinct buffered target rank, and afterwards the buffer is empty -
the triggering write is dropped, not retried into the buffer. -/
theorem c3_flush_amended (mpiRank maxBuffer : Nat) (buffer : List BufEntry)
    (w : BufEntry) (hw : w.rank ≠ mpiRank)
    (hfull : buffer.length = maxBuffer) :
    (distSave mpiRank maxBuffer buffer w).puts = buffer ∧
    (∀ r : Nat, (distSave mpiRank maxBuffer buffer w).locks.count r =
      if r ∈ buffer.map (fun e => e.rank) then 1 else 0) ∧
    (distSave mpiRank maxBuffer buffer w).buf = [] := by
  have h2 : ¬ buffer.length < maxBuffer := by omega
  have hds : distSave mpiRank maxBuffer buffer w =
      ⟨buffer, lockSeq [] (buffer.map (fun e => e.rank)), []⟩ := by
    simp only [distSave, if_neg hw, if_neg h2]
  rw [hds]
  refine ⟨rfl, ?_, rfl⟩
  intro r
  rw [lockSeq_count]
  simp

/-- A queued write addressed to rank 1. -/
def c3b1 : BufEntry := ⟨zeroCluster, 3, 1⟩

/-- A queued write addressed to rank 2. -/
def c3b2 : BufEntry := ⟨zeroCluster, 4, 2⟩

/-- The triggering write, addressed to rank 1. -/
def c3w : BufEntry := ⟨zeroCluster, 5, 1⟩

/-- Counterexample for C3 as stated: with MaxBuffer = 2, a full buffer of
two writes and a remote triggering write, the buffer after the flush is
empty, not the claimed singleton holding the triggering write. -/
theorem c3_counterexample :
    (distSave 0 2 [c3b1, c3b2] c3w).buf = [] ∧
    (distSave 0 2 [c3b1, c3b2] c3w).buf ≠ [c3w] := by decide

/-- Witness for C3 (amended): at the concrete flush both queued writes
are put once, each of the two distinct ranks is locked once, and the
buffer ends empty. -/
theorem c3_flush_amended_witness :
    (distSave 0 2 [c3b1, c3b2] c3w).puts = [c3b1, c3b2] ∧
    (distSave 0 2 [c3b1, c3b2] c3w).locks.count 1 =
      (if 1 ∈ List.map (fun e => e.rank) [c3b1, c3b2] then 1 else 0) ∧
    (distSave 0 2 [c3b1, c3b2] c3w).buf = [] :=
  ⟨(c3_flush_amended 0 2 [c3b1, c3b2] c3w (by decide) (by decide)).1,
    (c3_flush_amended 0 2 [c3b1, c3b2] c3w (by decide) (by decide)).2.1 1,
    (c3_flush_amended 0 2 [c3b1, c3b2] c3w (by decide) (by decide)).2.2⟩

/-- First entry of a cluster whose key fragment equals key16, if any -
the scan of the fetched remote cluster in the cached probe
(src/unnamed/part_002 lines 167-177). -/
def findMatch (c : Cluster) (key16 : Nat) : Option TTEntry :=
  if c.e0.key16 = key16 then some c.e0
  else if c.e1.key16 = key16 then some c.e1
  else if c.e2.key16 = key16 then some c.e2
  else none

/-- Point update of a table of clusters. -/
def setCluster (f : Nat → Cluster) (i : Nat) (c : Cluster) : Nat → Cluster :=
  fun j => if j = i then c else f j

/-- The outcome of a remote-path probe of the cached variant: whether the
key was found, whether a remote Get was issued, and the read cache after
the call. -/
structure RProbe where
  found : Bool
  usedRemote : Bool
  cache : Nat → Cluster

/-- The remote path of TranspositionTable::probe in the cached variant
(src/unnamed/part_002 lines 145-180) for a non-locally-owned key: the
cache line at (key >> 32) & (CacheCount - 1) is scanned first and a
fragment match returns with no remote operation; otherwise the owning
cluster is fetched remotely (modelled by the argument remote), and a
matching fetched entry is pushed into slot 0 of the cache line, shifting
the older entries down. -/
def remoteProbe (cacheCount key : Nat) (cache : Nat → Cluster)
    (remote : Cluster) : RProbe :=
  if (cache ((key >>> 32) &&& (cacheCount - 1))).e0.key16 = key >>> 48 ∨
      (cache ((key >>> 32) &&& (cacheCount - 1))).e1.key16 = key >>> 48 ∨
      (cache ((key >>> 32) &&& (cacheCount - 1))).e2.key16 = key >>> 48 then
    ⟨true, false, cache⟩
  else
    match findMatch remote (key >>> 48) with
    | some e =>
      ⟨true, true,
        setCluster cache ((key >>> 32) &&& (cacheCount - 1))
          { cache ((key >>> 32) &&& (cacheCount - 1)) with
            e0 := e
            e1 := (cache ((key >>> 32) &&& (cacheCount - 1))).e0
            e2 := (cache ((key >>> 32) &&& (cacheCount - 1))).e1 }⟩
    | none => ⟨false, true, cache⟩

/-- A found entry carries the searched key fragment. -/
theorem findMatch_key16 (c : Cluster) (key16 : Nat) (e : TTEntry)
    (h : findMatch c key16 = some e) : e.key16 = key16 := by
  unfold findMatch at h
  by_cases q0 : c.e0.key16 = key16
  · rw [if_pos q0] at h
    cases h
    exact q0
  · rw [if_neg q0] at h
    by_cases q1 : c.e1.key16 = key16
    · rw [if_pos q1] at h
      cases h
      exact q1
    · rw [if_neg q1] at h
      by_cases q2 : c.e2.key16 = key16
      · rw [if_pos q2] at h
        cases h
        exact q2
      · rw [if_neg q2] at h
        cases h

/-- Claim C8: if a probe of a remote-owned key K issued a remote fetch
and returned found=true, then an immediately subsequent probe of K on the
resulting cache is answered from the Local Read Cache: it returns
found=true and issues no remote Get, whatever the remote side would
reply. -/
theorem c8_cache_hit (cacheCount key : Nat) (cache : Nat → Cluster)
    (r1 r2 : Cluster)
    (hfetch : (remoteProbe cacheCount key cache r1).usedRemote = true)
    (hfound : (remoteProbe cacheCount key cache r1).found = true) :
    (remoteProbe cacheCount key
      ((remoteProbe cacheCount key cache r1).cache) r2).found = true ∧
    (remoteProbe cacheCount key
      ((remoteProbe cacheCount key cache r1).cache) r2).usedRemote = false := by
  by_cases hscan : (cache ((key >>> 32) &&& (cacheCount - 1))).e0.key16 = key >>> 48 ∨
      (cache ((key >>> 32) &&& (cacheCount - 1))).e1.key16 = key >>> 48 ∨
      (cache ((key >>> 32) &&& (cacheCount - 1))).e2.key16 = key >>> 48
  · exfalso
    have : (remoteProbe cacheCount key cache r1).usedRemote = false := by
      unfold remoteProbe
      rw [if_pos hscan]
    rw [hfetch] at this
    cases this
  · rcases hm : findMatch r1 (key >>> 48) with _ | e
    · exfalso
      have : (remoteProbe cacheCount key cache r1).found = false := by
        unfold remoteProbe
        rw [if_neg hscan, hm]
      rw [hfound] at this
      cases this
    · have hcache : (remoteProbe cacheCount key cache r1).cache =
          setCluster cache ((key >>> 32) &&& (cacheCount - 1))
            { cache ((key >>> 32) &&& (cacheCount - 1)) with
              e0 := e
              e1 := (cache ((key >>> 32) &&& (cacheCount - 1))).e0
              e2 := (cache ((key >>> 32) &&& (cacheCount - 1))).e1 } := by
        unfold remoteProbe
        rw [if_neg hscan, hm]
      have hek : e.key16 = key >>> 48 := findMatch_key16 r1 (key >>> 48) e hm
      have hslot : ((remoteProbe cacheCount key cache r1).cache
          ((key >>> 32) &&& (cacheCount - 1))).e0.key16 = key >>> 48 := by
        rw [hcache]
        unfold setCluster
        rw [if_pos rfl]
        exact hek
      obtain ⟨cache1, hc1⟩ : ∃ f, (remoteProbe cacheCount key cache r1).cache = f :=
        ⟨_, rfl⟩
      rw [hc1] at hslot ⊢
      constructor <;>
      · unfold remoteProbe
        rw [if_pos (Or.inl hslot)]

/-- The cache state before the witness probe: all zero lines. -/
def c8Cache : Nat → Cluster := fun _ => zeroCluster

/-- The remote cluster holding the probed key fragment 1 for the witness. -/
def c8Remote : Cluster := ⟨⟨1, 0, 0, 0, 0, 9⟩, zeroEntry, zeroEntry, 0, 0⟩

/-- Witness for C8: probing key 2^48 (fragment 1) against an empty cache
fetches remotely and hits; the immediate second probe is served from the
cache with no remote operation. -/
theorem c8_cache_hit_witness :
    (remoteProbe 4 (2 ^ 48) ((remoteProbe 4 (2 ^ 48) c8Cache c8Remote).cache)
      zeroCluster).found = true ∧
    (remoteProbe 4 (2 ^ 48) ((remoteProbe 4 (2 ^ 48) c8Cache c8Remote).cache)
      zeroCluster).usedRemote = false :=
  c8_cache_hit 4 (2 ^ 48) c8Cache c8Remote zeroCluster (by decide) (by decide)
